import Mathlib

/-!
Verification development for the due-dates job-application pipeline
(`duedates.py` + `app.py`).

The Python code is shallowly embedded:

* The regular-expression searches of `extract_job_details` are embedded
  with a small backtracking matcher over `List Char` whose enumeration
  order reproduces Python `re` semantics: leftmost search position wins,
  alternatives are tried in written order, greedy pieces prefer longer
  matches, lazy pieces prefer shorter ones, and the rightmost choice
  point backtracks first (realised here by the list monad: a sequence
  `a ; b` enumerates, for each result of `a` in order, all results of
  `b` in order).
* The MIME part walk of `extract_email_body`, the CSV enrichment of
  `process_job_ids`, and the Flask run-state flags of `app.py` are
  embedded as plain functions over explicit data types.

Machine-level concerns that do not affect the verified claims (base64
decoding, the Gmail transport, pandas I/O round-tripping) are taken as
abstract parameters or identity maps, as noted at each definition.
-/

namespace DueDates

/-! ### Character classes and Python string helpers -/

/-- Python `\s` / `str.strip` whitespace, ASCII part: space, tab,
newline, carriage return, vertical tab, form feed. -/
def isWs (c : Char) : Bool :=
  c = ' ' || c = '\t' || c = '\n' || c = '\r' || c = '\x0b' || c = '\x0c'

/-- Python `\d` (ASCII part). -/
def isDig (c : Char) : Bool := c.isDigit

/-- Regex class `[A-Za-z]`. -/
def isAlphaC (c : Char) : Bool := c.isAlpha

/-- Python `\w` (ASCII part): letters, digits, underscore. -/
def isWordC (c : Char) : Bool := c.isAlphanum || c = '_'

/-- Python `str.strip()`: drop leading and trailing whitespace. -/
def pyStrip (l : List Char) : List Char :=
  ((l.dropWhile isWs).reverse.dropWhile isWs).reverse

/-- Embeds `re.sub(r'\s+', '', s).upper()` from the Job-ID cleanup:
drop every whitespace character, then uppercase. -/
def normalizeId (l : List Char) : List Char :=
  (l.filter (fun c => !isWs c)).map Char.toUpper

/-- Python `str.strip()` on `String`s (used for CSV cell values). -/
def pyStripStr (s : String) : String := String.mk (pyStrip s.data)

/-- Python `a or b` on strings: `a` if non-empty (truthy), else `b`. -/
def pyOr (a b : String) : String := if a = "" then b else a

/-! ### Backtracking regex engine

A matcher state is the remaining input together with the previously
consumed character (needed for `\b` and `(?<!\w)`).  A matcher maps a
state to the list of possible successor states, in backtracking
preference order. -/

/-- Matcher state: remaining input and the character just before it. -/
abbrev St := List Char × Option Char

/-- A matcher: all successor states, in preference order. -/
abbrev M := St → List St

/-- Empty match. -/
def mEps : M := fun st => [st]

/-- Zero-width assertion. -/
def mGuard (p : St → Bool) : M := fun st => if p st then [st] else []

/-- Consume one character of a class. -/
def mChar (p : Char → Bool) : M := fun st =>
  match st.1 with
  | [] => []
  | c :: cs => if p c then [(cs, some c)] else []

/-- Sequencing: for each result of `a` in order, all results of `b` —
the rightmost piece backtracks first, as in Python `re`. -/
def mSeq (a b : M) : M := fun st => (a st).flatMap b

/-- Ordered alternation: all of `a`'s results before any of `b`'s. -/
def mAlt (a b : M) : M := fun st => a st ++ b st

/-- Greedy option `(?:...)?`: try the body first, then skipping it. -/
def mOptG (a : M) : M := mAlt a mEps

/-- Literal string match; `ci` selects case-insensitive comparison
(Python `(?i)`). -/
def mLit (ci : Bool) : List Char → M
  | [] => mEps
  | c :: cs =>
      mSeq (mChar (fun x => if ci then x.toLower = c.toLower else x = c)) (mLit ci cs)

/-- States of a greedy class star `p*`: longest consumption first. -/
def starStatesG (p : Char → Bool) : List Char → Option Char → List St
  | [], prev => [([], prev)]
  | c :: cs, prev =>
      if p c then starStatesG p cs (some c) ++ [(c :: cs, prev)]
      else [(c :: cs, prev)]

/-- Greedy class star. -/
def mStarG (p : Char → Bool) : M := fun st => starStatesG p st.1 st.2

/-- States of a lazy class star `p*?`: shortest consumption first. -/
def starStatesL (p : Char → Bool) : List Char → Option Char → List St
  | [], prev => [([], prev)]
  | c :: cs, prev =>
      (c :: cs, prev) :: (if p c then starStatesL p cs (some c) else [])

/-- Lazy class star. -/
def mStarL (p : Char → Bool) : M := fun st => starStatesL p st.1 st.2

/-- Consume exactly `n` characters of a class. -/
def mCountExact (p : Char → Bool) : Nat → M
  | 0 => mEps
  | n + 1 => mSeq (mChar p) (mCountExact p n)

/-- Greedy `p{n,}`: exactly `n`, then a greedy star. -/
def mRepAtLeast (p : Char → Bool) (n : Nat) : M :=
  mSeq (mCountExact p n) (mStarG p)

/-- Word-boundary test `\b` at a state: exactly one side is a `\w`
character (a missing side counts as non-word). -/
def wordB (st : St) : Bool :=
  (match st.2 with | some c => isWordC c | none => false)
    != (match st.1 with | c :: _ => isWordC c | [] => false)

/-- Attempt a match anchored at one state.  A pattern is split as
`pre · (cap) · suf`; the captured group is the segment consumed by
`cap`, and `suf` (trailing context or lookahead) only needs to succeed.
States are tried in backtracking order and the first full success
wins, exactly as in Python `re`. -/
def tryAt (pre cap suf : M) (st : St) : Option (List Char) :=
  (pre st).findSome? fun st1 =>
    (cap st1).findSome? fun st2 =>
      if (suf st2).isEmpty then none
      else some (st1.1.take (st1.1.length - st2.1.length))

/-- Leftmost search (`re.search`): try each start position left to
right, threading the previously consumed character. -/
def searchAux (pre cap suf : M) : List Char → Option Char → Option (List Char)
  | [], prev => tryAt pre cap suf ([], prev)
  | c :: cs, prev =>
      match tryAt pre cap suf ((c :: cs), prev) with
      | some g => some g
      | none => searchAux pre cap suf cs (some c)

/-- Search the whole input from its start. -/
def reSearch (pre cap suf : M) (l : List Char) : Option (List Char) :=
  searchAux pre cap suf l none

/-! ### The patterns of `extract_job_details`

Each definition transcribes one regular-expression literal of
`duedates.py` piece by piece, in written order. -/

/-- Leading tag `(?:Hybrid|Onsite|Remote)` of the title pattern,
case-insensitive. -/
def titleTag : M :=
  mAlt (mLit true "Hybrid".data) (mAlt (mLit true "Onsite".data) (mLit true "Remote".data))

/-- Optional suffix `(?:\s*/\s*Local)?` of the title pattern. -/
def titleLocal : M :=
  mOptG (mSeq (mStarG isWs)
    (mSeq (mChar (· = '/')) (mSeq (mStarG isWs) (mLit true "Local".data))))

/-- First title alternative
`(?:Hybrid|Onsite|Remote)(?:\s*/\s*Local)?[^(]*\(.*?\)` — note that
`[^(]*` admits newlines while the lazy `.*?` does not. -/
def titleAlt1 : M :=
  mSeq titleTag (mSeq titleLocal
    (mSeq (mStarG (· ≠ '(')) (mSeq (mChar (· = '('))
      (mSeq (mStarL (· ≠ '\n')) (mChar (· = ')'))))))

/-- Second title alternative
`(?:Hybrid|Onsite|Remote)(?:\s*/\s*Local)?.*?`. -/
def titleAlt2 : M :=
  mSeq titleTag (mSeq titleLocal (mStarL (· ≠ '\n')))

/-- Group 1 of the title pattern: the two alternatives in order. -/
def titleCap : M := mAlt titleAlt1 titleAlt2

/-- Python `\s+` as a matcher: one class character then a greedy star. -/
def wsPlus : M := mSeq (mChar isWs) (mStarG isWs)

/-- Title lookahead `(?=\s+with\s+|\s*\(|$|\n)`; `$` holds at the end of
the input or just before a final newline. -/
def titleLook : M :=
  mAlt (mSeq wsPlus (mSeq (mLit true "with".data) wsPlus))
    (mAlt (mSeq (mStarG isWs) (mChar (· = '(')))
      (mAlt (mGuard (fun st => st.1.isEmpty || st.1 == ['\n']))
        (mChar (· = '\n'))))

/-- Embeds `re.search(title_pattern, body)` returning group 1. -/
def title_match (body : List Char) : Option (List Char) :=
  reSearch mEps titleCap titleLook body

/-- Optional label `(?:job\s*|req\s*|position\s*)?` shared by the first
three Job-ID patterns. -/
def jobLabelOpt : M :=
  mOptG (mAlt (mSeq (mLit true "job".data) (mStarG isWs))
    (mAlt (mSeq (mLit true "req".data) (mStarG isWs))
      (mSeq (mLit true "position".data) (mStarG isWs))))

/-- Mandatory label `(?:id\s*|#\s*|num\s*|number\s*)`, alternatives in
written order (`num` before `number`). -/
def jobLabelMand : M :=
  mAlt (mSeq (mLit true "id".data) (mStarG isWs))
    (mAlt (mSeq (mLit true "#".data) (mStarG isWs))
      (mAlt (mSeq (mLit true "num".data) (mStarG isWs))
        (mSeq (mLit true "number".data) (mStarG isWs))))

/-- Capture group `([A-Za-z]{2,}-?\d{3,})` of patterns 1, 3 and 4. -/
def jobIdCapHyphen : M :=
  mSeq (mRepAtLeast isAlphaC 2) (mSeq (mOptG (mChar (· = '-'))) (mRepAtLeast isDig 3))

/-- Capture group `([A-Za-z]{2,}\s*\d{3,})` of pattern 2. -/
def jobIdCapSpace : M :=
  mSeq (mRepAtLeast isAlphaC 2) (mSeq (mStarG isWs) (mRepAtLeast isDig 3))

/-- Pattern 1:
`(?i)(?:job\s*|req\s*|position\s*)?(?:id\s*|#\s*|num\s*|number\s*)[:=\s]*([A-Za-z]{2,}-?\d{3,})`. -/
def jobIdSearch1 (body : List Char) : Option (List Char) :=
  reSearch (mSeq jobLabelOpt (mSeq jobLabelMand
      (mStarG (fun c => c = ':' || c = '=' || isWs c))))
    jobIdCapHyphen mEps body

/-- Pattern 2: as pattern 1 but with the whitespace-separated capture. -/
def jobIdSearch2 (body : List Char) : Option (List Char) :=
  reSearch (mSeq jobLabelOpt (mSeq jobLabelMand
      (mStarG (fun c => c = ':' || c = '=' || isWs c))))
    jobIdCapSpace mEps body

/-- Pattern 3:
`(?i)\b(?:job\s*|req\s*|position\s*)?(?:id\s*|#\s*|num\s*|number\s*)\b\s*[:-]?\s*([A-Za-z]{2,}-?\d{3,})`. -/
def jobIdSearch3 (body : List Char) : Option (List Char) :=
  reSearch (mSeq (mGuard wordB) (mSeq jobLabelOpt (mSeq jobLabelMand
      (mSeq (mGuard wordB) (mSeq (mStarG isWs)
        (mSeq (mOptG (mChar (fun c => c = ':' || c = '-'))) (mStarG isWs)))))))
    jobIdCapHyphen mEps body

/-- Pattern 4: `(?<!\w)([A-Za-z]{2,}-?\d{3,})(?!\w)` — a standalone
identifier guarded by a negative lookbehind and lookahead. -/
def jobIdSearch4 (body : List Char) : Option (List Char) :=
  reSearch
    (mGuard (fun st => !(match st.2 with | some c => isWordC c | none => false)))
    jobIdCapHyphen
    (mGuard (fun st => !(match st.1 with | c :: _ => isWordC c | [] => false)))
    body

/-- Embeds the `for pattern in job_id_patterns` loop: the first pattern
that matches anywhere wins; its group 1 is returned. -/
def job_id_match (body : List Char) : Option (List Char) :=
  match jobIdSearch1 body with
  | some g => some g
  | none => match jobIdSearch2 body with
    | some g => some g
    | none => match jobIdSearch3 body with
      | some g => some g
      | none => jobIdSearch4 body

/-- Embeds `re.search(r'{}\s*\((\d+)\)'.format(re.escape(job_id)), body)`
returning group 1 (the digits).  `re.escape` makes the normalized id a
literal; this search is case-sensitive (no `(?i)` flag). -/
def date_match (jobId : List Char) (body : List Char) : Option (List Char) :=
  reSearch (mSeq (mLit false jobId) (mSeq (mStarG isWs) (mChar (· = '('))))
    (mSeq (mChar isDig) (mStarG isDig))
    (mChar (· = ')'))
    body

/-! ### `extract_job_details` -/

/-- Result record of `extract_job_details` (the `job_data` dict). -/
structure JobData where
  Title : Option String
  Job_ID : Option String
  Due_date : Option String
deriving DecidableEq, Repr

/-- Python `full_number[-4:]`. -/
def lastFour (ds : List Char) : List Char := ds.drop (ds.length - 4)

/-- Python `f"{last_four[:2]}/{last_four[2:]}"`. -/
def dueFormat (ds : List Char) : String :=
  String.mk ((lastFour ds).take 2) ++ "/" ++ String.mk ((lastFour ds).drop 2)

/-- Embeds `extract_job_details(body)`.  `none` models Python `None`;
`if not body` is true for both `None` and the empty string.  The due
date is attempted only when a Job ID was found, and is set only when
the captured digit run yields a full four-character tail
(`len(last_four) == 4`, i.e. at least four digits). -/
def extract_job_details (body : Option String) : JobData :=
  match body with
  | none => ⟨none, none, none⟩
  | some s =>
    if s = "" then ⟨none, none, none⟩
    else
      let l := s.data
      let title : Option String :=
        (title_match l).map (fun g => String.mk (pyStrip g))
      let jid : Option String :=
        (job_id_match l).map (fun g => String.mk (normalizeId (pyStrip g)))
      let due : Option String :=
        match jid with
        | none => none
        | some j =>
          match date_match j.data l with
          | none => none
          | some ds => if 4 ≤ ds.length then some (dueFormat ds) else none
      ⟨title, jid, due⟩

/-! ### `extract_email_body`

A Gmail payload part; `mimeType`, the `body.data` field and the
`parts` list are each optional, mirroring the dictionary-key checks
(`part.get('mimeType')`, `'body' in part and 'data' in part['body']`,
`'parts' in part`).  Base64url decoding plus lenient UTF-8 decoding is
abstracted as a `decode` parameter: the claims about this function
concern part selection, not the byte-level decode. -/
inductive Part where
  | mk (mimeType : Option String) (dataOpt : Option String) (subs : Option (List Part))

/-- Field accessor. -/
def Part.mimeType : Part → Option String | .mk m _ _ => m

/-- Field accessor. -/
def Part.dataOpt : Part → Option String | .mk _ d _ => d

/-- Field accessor. -/
def Part.subs : Part → Option (List Part) | .mk _ _ s => s

/-- Test `part.get('mimeType') in ['text/plain', 'text/html']`. -/
def isTextPart (p : Part) : Bool :=
  p.mimeType == some "text/plain" || p.mimeType == some "text/html"

/-- Embeds the inner `for subpart in part['parts']` loop: the first
sub-part with a text type and data (the inner `break` fires there). -/
def findSub : List Part → Option String
  | [] => none
  | p :: rest =>
      if isTextPart p then
        match p.dataOpt with
        | some d => some d
        | none => findSub rest
      else findSub rest

/-- Embeds the outer `for part in payload['parts']` loop with
accumulator `body`.  A text-typed part with data `break`s the outer
loop; a sub-part match only `break`s the inner loop, so the outer scan
continues and later parts can overwrite `body`. -/
def scanParts (decode : String → String) : List Part → String → String
  | [], body => body
  | p :: rest, body =>
      if isTextPart p then
        match p.dataOpt with
        | some d => decode d
        | none => scanParts decode rest body
      else
        match p.subs with
        | some subs =>
            scanParts decode rest
              (match findSub subs with
               | some d => decode d
               | none => body)
        | none => scanParts decode rest body

/-- Embeds `extract_email_body` after the message fetch: root data wins
outright; otherwise the parts are scanned; an empty final `body` is
falsy and yields `None`. -/
def extract_email_body (decode : String → String) (payload : Part) : Option String :=
  let body :=
    match payload.dataOpt with
    | some d => decode d
    | none =>
      match payload.subs with
      | some ps => scanParts decode ps ""
      | none => ""
  if body = "" then none else some body

/-- Modelled from the spec (refinement side of the body-decoder claim):
the first part in a depth-first traversal — each root part, then its
one level of sub-parts — whose type is text and which carries data. -/
def dfs_first_text_data : List Part → Option String
  | [] => none
  | p :: rest =>
      if isTextPart p && p.dataOpt.isSome then p.dataOpt
      else
        match (p.subs.getD []).findSome?
            (fun q => if isTextPart q && q.dataOpt.isSome then q.dataOpt else none) with
        | some d => some d
        | none => dfs_first_text_data rest

/-- First top-level part that is text-typed and carries data (the only
kind of match that stops the outer scan). -/
def firstDirect : List Part → Option String
  | [] => none
  | p :: rest =>
      if isTextPart p then
        match p.dataOpt with
        | some d => some d
        | none => firstDirect rest
      else firstDirect rest

/-- Sub-part match of the last non-text container part that has one
(later containers overwrite earlier ones in the outer scan). -/
def lastSubMatch : List Part → Option String
  | [] => none
  | p :: rest =>
      match lastSubMatch rest with
      | some d => some d
      | none => if isTextPart p then none else findSub (p.subs.getD [])

/-! ### Checkpoint table and enrichment (`process_job_ids`)

A CSV row is an association list with unique keys, as produced by
`csv.DictReader`; a table carries the reader's `fieldnames` and rows. -/

/-- A CSV row: ordered key/value pairs. -/
abbrev Row := List (String × String)

/-- Python `row.get(k, '')`. -/
def rowGet : Row → String → String
  | [], _ => ""
  | kv :: rest, k => if kv.1 = k then kv.2 else rowGet rest k

/-- Python `k in row`. -/
def hasKey : Row → String → Bool
  | [], _ => false
  | kv :: rest, k => kv.1 = k || hasKey rest k

/-- Python `row[k] = v` on a dict: replace the first (unique) binding in
place, or append a new one. -/
def rowSet : Row → String → String → Row
  | [], k, v => [(k, v)]
  | kv :: rest, k, v =>
      if kv.1 = k then (k, v) :: rest else kv :: rowSet rest k v

/-- A checkpoint table: header names plus rows. -/
structure Table where
  fieldnames : List String
  rows : List Row
deriving DecidableEq

/-- Embeds `count_emails_for_job_id`: the secondary-mailbox query is a
function returning `none` on a raised exception; the handler logs and
returns `0`, and a successful query returns `resultSizeEstimate`. -/
def count_emails_for_job_id (svc : String → Option Nat) (jobId : String) : Nat :=
  match svc jobId with
  | some n => n
  | none => 0

/-- Embeds `row.get('Job ID', '').strip() or row.get('Job_ID', '').strip()`. -/
def rowJobId (row : Row) : String :=
  pyOr (pyStripStr (rowGet row "Job ID")) (pyStripStr (rowGet row "Job_ID"))

/-- Embeds the body of `process_job_ids` between the checkpoint read and
rewrite: add the `No_of_emails` column with default `'0'` when absent,
then overwrite each non-empty-Job-ID row's count with the query result. -/
def process_job_ids (svc : String → Option Nat) (t : Table) : Table :=
  let present := "No_of_emails" ∈ t.fieldnames
  let fieldnames := if present then t.fieldnames else t.fieldnames ++ ["No_of_emails"]
  let rows0 := if present then t.rows else t.rows.map (fun r => rowSet r "No_of_emails" "0")
  let rows1 := rows0.map (fun r =>
    let jid := rowJobId r
    if jid = "" then r
    else rowSet r "No_of_emails" (toString (count_emails_for_job_id svc jid)))
  ⟨fieldnames, rows1⟩

/-- Embeds the checkpoint-file boundary of `process_job_ids`: a failure
reading (or rewriting) the CSV is re-raised by the surrounding
`except` block and aborts the phase; a loaded table is processed. -/
def process_job_ids_file (svc : String → Option Nat) :
    Except String Table → Except String Table
  | .error e => .error e
  | .ok t => .ok (process_job_ids svc t)

/-! ### Aggregation (`main` / `process_emails_background` data path)

Extraction produces `JobRecord`s tagged with the transient source
message id; rows with a missing `Title` are dropped
(`df.dropna(subset=['Title'])`), the `Email ID` column is dropped, and
the remainder is checkpointed as CSV with `None` rendered as the empty
cell. -/

/-- CSV row written for one surviving record (columns in DataFrame
order, `Email ID` already dropped). -/
def recordToRow (j : JobData) : Row :=
  [("Title", j.Title.getD ""), ("Job_ID", j.Job_ID.getD ""), ("Due_date", j.Due_date.getD "")]

/-- Embeds the aggregation/checkpoint step: filter out null titles,
strip the message id, and lay out the intermediate table. -/
def aggregate_results (rs : List (JobData × String)) : Table :=
  ⟨["Title", "Job_ID", "Due_date"],
   (rs.filter (fun p => p.1.Title.isSome)).map (fun p => recordToRow p.1)⟩

/-! ### Run state (`app.py`) -/

/-- The module-level mutable state of `app.py`: `processing`,
`results_file`, `process_completed`, `progress_state`. -/
structure AppState where
  processing : Bool
  results_file : Option String
  process_completed : Bool
  progress_state : List String
deriving DecidableEq

/-- Outcome of one background run, as distinguished by
`process_emails_background`'s control flow. -/
inductive RunOutcome where
  | noMessages
  | noValidRecords
  | producedExcel (path : String)
  | producedCsv (path : String)
  | raised (err : String)
deriving DecidableEq

/-- Value of the global `results_file` after the `try` body: only the
two artifact-producing paths assign it. -/
def run_result_file (s : AppState) (o : RunOutcome) : Option String :=
  match o with
  | .producedExcel p => some p
  | .producedCsv p => some p
  | _ => s.results_file

/-- Embeds the state left by `process_emails_background`'s `finally`
block: the processing flag is cleared, the progress list is cleared,
and `process_completed` is true only if `results_file` is set and the
file exists (`fileExists` models `os.path.exists`). -/
def process_emails_background (fileExists : String → Bool)
    (s : AppState) (o : RunOutcome) : AppState :=
  let rf := run_result_file s o
  { processing := false
    results_file := rf
    progress_state := []
    process_completed := match rf with
      | some p => fileExists p
      | none => false }

/-- Embeds the `/process_emails` route: if no run is active, flip the
flags, seed the progress list and start the background thread (the
returned flag records that a run was started); otherwise flash a
warning and leave the state untouched. -/
def process_emails (s : AppState) : AppState × Bool :=
  if s.processing then (s, false)
  else
    ({ s with processing := true
              process_completed := false
              progress_state := ["Accessing Gmails..."] }, true)

/-! ### Helper lemmas -/

theorem getD_map_lt (f : Row → Row) (l : List Row) (i : Nat) (hi : i < l.length) :
    (l.map f).getD i [] = f (l.getD i []) := by
  induction l generalizing i with
  | nil => simp at hi
  | cons r rest ih =>
    cases i with
    | zero => simp [List.getD]
    | succ n =>
      simp only [List.map_cons, List.getD_cons_succ]
      exact ih n (by simpa using hi)

theorem rowGet_rowSet_self (r : Row) (k v : String) :
    rowGet (rowSet r k v) k = v := by
  induction r with
  | nil => simp [rowSet, rowGet]
  | cons kv rest ih =>
    by_cases h : kv.1 = k <;> simp [rowSet, rowGet, h, ih]

theorem rowGet_rowSet_ne (r : Row) (k v k' : String) (h : k' ≠ k) :
    rowGet (rowSet r k v) k' = rowGet r k' := by
  induction r with
  | nil => simp [rowSet, rowGet, Ne.symm h]
  | cons kv rest ih =>
    by_cases hk : kv.1 = k
    · simp [rowSet, rowGet, hk, Ne.symm h]
    · simp [rowSet, rowGet, hk, ih]

theorem hasKey_rowSet_self (r : Row) (k v : String) :
    hasKey (rowSet r k v) k = true := by
  induction r with
  | nil => simp [rowSet, hasKey]
  | cons kv rest ih =>
    by_cases h : kv.1 = k <;> simp [rowSet, hasKey, h, ih]

theorem hasKey_rowSet_ne (r : Row) (k v k' : String) (h : k' ≠ k) :
    hasKey (rowSet r k v) k' = hasKey r k' := by
  induction r with
  | nil => simp [rowSet, hasKey, Ne.symm h]
  | cons kv rest ih =>
    by_cases hk : kv.1 = k
    · simp [rowSet, hasKey, hk, Ne.symm h]
    · simp [rowSet, hasKey, hk, ih]

theorem rowJobId_rowSet_count (r : Row) (v : String) :
    rowJobId (rowSet r "No_of_emails" v) = rowJobId r := by
  unfold rowJobId
  rw [rowGet_rowSet_ne r _ _ _ (by decide), rowGet_rowSet_ne r _ _ _ (by decide)]

/-! ### Claim theorems -/

set_option maxRecDepth 10000

/-- C1 counterexample: on the scenario body the extractor's Title is
`"Remote Software Engineer (Full-time)"`, not the claimed
`"Remote Software Engineer"` — the first title alternative also
consumes the complete parenthesized group after the tagged text. -/
theorem C1_counterexample :
    (extract_job_details
      (some "Remote Software Engineer (Full-time) with Job ID: ABC-12345 (20230615)")).Title
      = some "Remote Software Engineer (Full-time)"
    ∧ (extract_job_details
      (some "Remote Software Engineer (Full-time) with Job ID: ABC-12345 (20230615)")).Title
      ≠ some "Remote Software Engineer" := by
  decide

/-- C1 (amended): for the body
`"Remote Software Engineer (Full-time) with Job ID: ABC-12345 (20230615)"`
the extractor returns Title = `"Remote Software Engineer (Full-time)"`
(the first title alternative consumes the parenthesized group before
the `" with "` lookahead applies), Job_ID = `"ABC-12345"` and
Due_date = `"06/15"`. -/
theorem C1_scenario_extraction :
    extract_job_details
      (some "Remote Software Engineer (Full-time) with Job ID: ABC-12345 (20230615)")
      = ⟨some "Remote Software Engineer (Full-time)", some "ABC-12345", some "06/15"⟩ := by
  decide

/-- C5 counterexample: in the body `"AB-123 (99)"` the normalized
Job_ID `"AB-123"` is followed by the parenthesized digit run `"99"`,
yet Due_date stays null — the code only sets it when the run has at
least four digits. -/
theorem C5_counterexample :
    (extract_job_details (some "AB-123 (99)")).Job_ID = some "AB-123"
    ∧ date_match "AB-123".data "AB-123 (99)".data = some "99".data
    ∧ (extract_job_details (some "AB-123 (99)")).Due_date = none := by
  decide

/-- C5 (amended): when a Job_ID was extracted and the literal
normalized Job_ID followed by a parenthesized digit run occurs,
Due_date is the last four digits of that run split two/two and joined
by `/` — but only when the run has at least four digits; shorter runs
leave Due_date null. -/
theorem C5_due_date_from_digit_run (s : String) (j ds : List Char)
    (hs : s ≠ "")
    (hj : job_id_match s.data = some j)
    (hd : date_match (normalizeId (pyStrip j)) s.data = some ds) :
    (extract_job_details (some s)).Due_date
      = if 4 ≤ ds.length then some (dueFormat ds) else none := by
  simp only [extract_job_details, if_neg hs, hj, Option.map_some]
  have : (String.mk (normalizeId (pyStrip j))).data = normalizeId (pyStrip j) := rfl
  simp [this, hd]

/-- C5 witness: the amended theorem applied to the body
`"AB-1234 (20230615)"`. -/
theorem C5_witness :
    (extract_job_details (some "AB-1234 (20230615)")).Due_date
      = if 4 ≤ "20230615".data.length then some (dueFormat "20230615".data) else none :=
  C5_due_date_from_digit_run "AB-1234 (20230615)" "AB-1234".data "20230615".data
    (by decide) (by decide) (by decide)

/-- C6: for every input body (including null and empty), the record
returned by the extractor never has Due_date set while Job_ID is null:
the due-date search only runs inside the branch where a Job_ID was
found. -/
theorem C6_no_due_date_without_job_id (body : Option String)
    (h : (extract_job_details body).Job_ID = none) :
    (extract_job_details body).Due_date = none := by
  cases body with
  | none => rfl
  | some s =>
    by_cases hs : s = ""
    · simp [extract_job_details, hs]
    · simp only [extract_job_details, if_neg hs] at h ⊢
      cases hm : job_id_match s.data with
      | none => simp [hm]
      | some g => simp [hm] at h

/-- C6 witness: applied to the body `"hello"`, which yields no Job_ID. -/
theorem C6_witness :
    (extract_job_details (some "hello")).Due_date = none :=
  C6_no_due_date_without_job_id (some "hello") (by decide)

/-- Characterization of the outer part scan: the result is the first
top-level text part carrying data if one exists; otherwise the
sub-part match of the last container that has one; otherwise the
initial accumulator.  (A sub-part match does not break the outer loop,
so later containers overwrite earlier ones.) -/
theorem scanParts_characterization (decode : String → String) (ps : List Part) (body : String) :
    scanParts decode ps body =
      match firstDirect ps with
      | some d => decode d
      | none =>
        match lastSubMatch ps with
        | some d => decode d
        | none => body := by
  induction ps generalizing body with
  | nil => simp [scanParts, firstDirect, lastSubMatch]
  | cons p rest ih =>
    by_cases ht : isTextPart p = true
    · cases hd : p.dataOpt with
      | some d => simp [scanParts, firstDirect, lastSubMatch, ht, hd, ih]
      | none =>
        simp only [scanParts, firstDirect, lastSubMatch, ht, hd, if_true, ih]
        cases lastSubMatch rest <;> rfl
    · cases hsub : p.subs with
      | some subs =>
        simp only [scanParts, firstDirect, lastSubMatch, ht, hsub, Bool.false_eq_true,
          if_false, ih]
        cases lastSubMatch rest <;> cases hfs : findSub subs <;>
          cases firstDirect rest <;> simp [hsub, hfs]
      | none =>
        simp only [scanParts, firstDirect, lastSubMatch, ht, hsub, Bool.false_eq_true,
          if_false, ih]
        cases lastSubMatch rest <;> cases firstDirect rest <;>
          simp [hsub, findSub]

/-- Parts list of the C3 counterexample payload: a container whose
sub-part matches, followed by a directly matching top-level part. -/
def c3Parts : List Part :=
  [.mk (some "multipart/alternative") none
      (some [.mk (some "text/plain") (some "A") none]),
   .mk (some "text/plain") (some "B") none]

/-- C3 counterexample: with the identity decode, the decoder returns
the second top-level part's `"B"`, while the depth-first first match is
the sub-part `"A"` — the inner `break` leaves the outer loop running,
so the claim's "stops at that first match" fails. -/
theorem C3_counterexample :
    extract_email_body (fun s => s) (.mk none none (some c3Parts)) = some "B"
    ∧ dfs_first_text_data c3Parts = some "A" := by
  decide

/-- C3 (amended): for a payload whose root carries no direct data, the
decoder returns the decoded data of the first top-level part that is
text-typed and carries data; only such a top-level match stops the
scan.  A sub-part match does not stop it: when no top-level part
matches directly, the surviving value is the first matching sub-part
of the last container that has one, and an empty decode yields no
body. -/
theorem C3_first_top_level_match (decode : String → String)
    (mt : Option String) (ps : List Part) :
    extract_email_body decode (.mk mt none (some ps)) =
      (let b :=
        match firstDirect ps with
        | some d => decode d
        | none =>
          match lastSubMatch ps with
          | some d => decode d
          | none => ""
       if b = "" then none else some b) := by
  simp only [extract_email_body, Part.dataOpt, Part.subs,
    scanParts_characterization]

/-- C2 counterexample: a checkpoint row whose email count is `"7"` and
whose secondary-mailbox query fails ends up with count `"0"` — the
exception handler returns `0`, which is then written into the row, so
the prior value is not kept. -/
theorem C2_counterexample :
    rowGet ((process_job_ids (fun _ => none)
        ⟨["Job_ID", "No_of_emails"],
         [[("Job_ID", "AB-123"), ("No_of_emails", "7")]]⟩).rows.getD 0 [])
      "No_of_emails" = "0"
    ∧ rowGet [("Job_ID", "AB-123"), ("No_of_emails", "7")] "No_of_emails" = "7" := by
  decide

/-- C2 (amended): a failed count query for a row with a non-empty
Job_ID is logged and the handler's return value `0` is written into
the row (overwriting the prior value with `"0"`, not keeping it); a
failure reading or rewriting the checkpoint file itself aborts the
whole enrichment phase. -/
theorem C2_query_failure_writes_zero (svc : String → Option Nat) (t : Table)
    (hp : "No_of_emails" ∈ t.fieldnames)
    (i : Nat) (hi : i < t.rows.length)
    (hjid : rowJobId (t.rows.getD i []) ≠ "")
    (hfail : svc (rowJobId (t.rows.getD i [])) = none) :
    rowGet ((process_job_ids svc t).rows.getD i []) "No_of_emails" = "0"
    ∧ ∀ e, process_job_ids_file svc (Except.error e) = Except.error e := by
  refine ⟨?_, fun e => rfl⟩
  simp only [process_job_ids, if_pos hp]
  rw [getD_map_lt _ _ i hi]
  simp only [if_neg hjid, rowGet_rowSet_self, count_emails_for_job_id, hfail]
  rfl

/-- C2 witness: the amended theorem applied to the counterexample
table with an always-failing query. -/
theorem C2_witness :
    rowGet ((process_job_ids (fun _ => none)
        ⟨["Job_ID", "No_of_emails"],
         [[("Job_ID", "AB-123"), ("No_of_emails", "7")]]⟩).rows.getD 0 [])
      "No_of_emails" = "0"
    ∧ ∀ e, process_job_ids_file (fun _ => none) (Except.error e) = Except.error e :=
  C2_query_failure_writes_zero (fun _ => none)
    ⟨["Job_ID", "No_of_emails"], [[("Job_ID", "AB-123"), ("No_of_emails", "7")]]⟩
    (by decide) 0 (by decide) (by decide) rfl

/-- C8: when the checkpoint lacks the `No_of_emails` column it is
appended exactly once (count 1 in the header), every enriched row
carries it, and its value is the default `"0"` for every row that is
not queried (empty stripped Job-ID) while a queried row holds the
query result that overwrote the default; when the column is already
present the header is unchanged and rows that carried the column
still carry it. -/
theorem C8_email_count_column_once (svc : String → Option Nat) (t : Table) :
    ("No_of_emails" ∉ t.fieldnames →
      (process_job_ids svc t).fieldnames.count "No_of_emails" = 1
      ∧ (∀ r ∈ (process_job_ids svc t).rows, hasKey r "No_of_emails" = true)
      ∧ (∀ i, i < t.rows.length →
          rowGet ((process_job_ids svc t).rows.getD i []) "No_of_emails"
            = if rowJobId (t.rows.getD i []) = "" then "0"
              else toString (count_emails_for_job_id svc (rowJobId (t.rows.getD i [])))))
    ∧ ("No_of_emails" ∈ t.fieldnames →
      (process_job_ids svc t).fieldnames = t.fieldnames
      ∧ ∀ i, i < t.rows.length →
          hasKey (t.rows.getD i []) "No_of_emails" = true →
          hasKey ((process_job_ids svc t).rows.getD i []) "No_of_emails" = true) := by
  constructor
  · intro hnp
    refine ⟨?_, ?_, ?_⟩
    · simp only [process_job_ids, if_neg hnp, List.count_append]
      rw [List.count_eq_zero.mpr hnp]
      simp
    · intro r hr
      simp only [process_job_ids, if_neg hnp, List.map_map] at hr
      obtain ⟨r0, _, rfl⟩ := List.mem_map.1 hr
      simp only [Function.comp]
      by_cases hj : rowJobId (rowSet r0 "No_of_emails" "0") = ""
      · simp [hj, hasKey_rowSet_self]
      · simp [hj, hasKey_rowSet_self]
    · intro i hi
      simp only [process_job_ids, if_neg hnp, List.map_map]
      rw [getD_map_lt _ _ i hi]
      simp only [Function.comp]
      rw [rowJobId_rowSet_count]
      by_cases hj : rowJobId (t.rows.getD i []) = ""
      · simp only [if_pos hj, rowGet_rowSet_self]
      · simp only [if_neg hj, rowGet_rowSet_self]
  · intro hp
    refine ⟨by simp [process_job_ids, hp], ?_⟩
    intro i hi hk
    simp only [process_job_ids, if_pos hp]
    rw [getD_map_lt _ _ i hi]
    by_cases hj : rowJobId (t.rows.getD i []) = ""
    · simp only [if_pos hj]
      exact hk
    · simp only [if_neg hj, hasKey_rowSet_self]

/-- C8 witness: a one-row table lacking the column: after enrichment
the header carries `No_of_emails` exactly once, the row has it, and
its non-queried row holds the default `"0"`. -/
theorem C8_witness :
    (process_job_ids (fun _ => some 3)
        ⟨["Title"], [[("Title", "T")]]⟩).fieldnames.count "No_of_emails" = 1
    ∧ hasKey ((process_job_ids (fun _ => some 3)
        ⟨["Title"], [[("Title", "T")]]⟩).rows.getD 0 []) "No_of_emails" = true
    ∧ rowGet ((process_job_ids (fun _ => some 3)
        ⟨["Title"], [[("Title", "T")]]⟩).rows.getD 0 []) "No_of_emails" = "0" := by
  have h := C8_email_count_column_once (fun _ => some 3) ⟨["Title"], [[("Title", "T")]]⟩
  refine ⟨(h.1 (by decide)).1, (h.1 (by decide)).2.1 _ (by decide), ?_⟩
  have hv := (h.1 (by decide)).2.2 0 (by decide)
  rw [if_pos (by decide)] at hv
  exact hv

/-- C10: enrichment preserves the number and order of rows and every
column other than `No_of_emails`; a row whose Job-ID cell is empty or
whitespace-only (so that the stripped id is empty) is left untouched
when the column was already present. -/
theorem C10_enrichment_frame (svc : String → Option Nat) (t : Table) :
    (process_job_ids svc t).rows.length = t.rows.length
    ∧ (∀ i k, k ≠ "No_of_emails" →
        rowGet ((process_job_ids svc t).rows.getD i []) k = rowGet (t.rows.getD i []) k)
    ∧ (∀ i, "No_of_emails" ∈ t.fieldnames →
        rowJobId (t.rows.getD i []) = "" →
        rowGet ((process_job_ids svc t).rows.getD i []) "No_of_emails"
          = rowGet (t.rows.getD i []) "No_of_emails") := by
  have hlen : (process_job_ids svc t).rows.length = t.rows.length := by
    by_cases hp : "No_of_emails" ∈ t.fieldnames <;>
      simp [process_job_ids, hp]
  refine ⟨hlen, ?_, ?_⟩
  · intro i k hk
    by_cases hi : i < t.rows.length
    · by_cases hp : "No_of_emails" ∈ t.fieldnames
      · simp only [process_job_ids, if_pos hp]
        rw [getD_map_lt _ _ i hi]
        by_cases hj : rowJobId (t.rows.getD i []) = ""
        · simp only [if_pos hj]
        · simp only [if_neg hj]
          exact rowGet_rowSet_ne _ _ _ _ hk
      · simp only [process_job_ids, if_neg hp, List.map_map]
        rw [getD_map_lt _ _ i hi]
        simp only [Function.comp]
        by_cases hj : rowJobId (rowSet (t.rows.getD i []) "No_of_emails" "0") = ""
        · simp only [if_pos hj]
          exact rowGet_rowSet_ne _ _ _ _ hk
        · simp only [if_neg hj]
          rw [rowGet_rowSet_ne _ _ _ _ hk, rowGet_rowSet_ne _ _ _ _ hk]
    · have h1 : (process_job_ids svc t).rows.getD i [] = [] :=
        List.getD_eq_default _ _ (by omega)
      have h2 : t.rows.getD i [] = [] :=
        List.getD_eq_default _ _ (by omega)
      rw [h1, h2]
  · intro i hp hj
    by_cases hi : i < t.rows.length
    · simp only [process_job_ids, if_pos hp]
      rw [getD_map_lt _ _ i hi]
      simp only [if_pos hj]
    · have h1 : (process_job_ids svc t).rows.getD i [] = [] :=
        List.getD_eq_default _ _ (by omega)
      have h2 : t.rows.getD i [] = [] :=
        List.getD_eq_default _ _ (by omega)
      rw [h1, h2]

/-- C10 witness: a two-row table with the column present, one row with
an id and one with a whitespace-only id. -/
theorem C10_witness :
    (process_job_ids (fun _ => some 5)
        ⟨["Job_ID", "No_of_emails"],
         [[("Job_ID", "AB-123"), ("No_of_emails", "0")],
          [("Job_ID", "  "), ("No_of_emails", "4")]]⟩).rows.length = 2
    ∧ rowGet ((process_job_ids (fun _ => some 5)
        ⟨["Job_ID", "No_of_emails"],
         [[("Job_ID", "AB-123"), ("No_of_emails", "0")],
          [("Job_ID", "  "), ("No_of_emails", "4")]]⟩).rows.getD 0 []) "Job_ID" = "AB-123"
    ∧ rowGet ((process_job_ids (fun _ => some 5)
        ⟨["Job_ID", "No_of_emails"],
         [[("Job_ID", "AB-123"), ("No_of_emails", "0")],
          [("Job_ID", "  "), ("No_of_emails", "4")]]⟩).rows.getD 1 []) "No_of_emails" = "4" := by
  have h := C10_enrichment_frame (fun _ => some 5)
    ⟨["Job_ID", "No_of_emails"],
     [[("Job_ID", "AB-123"), ("No_of_emails", "0")],
      [("Job_ID", "  "), ("No_of_emails", "4")]]⟩
  refine ⟨h.1, ?_, ?_⟩
  · have := h.2.1 0 "Job_ID" (by decide)
    simpa using this
  · have := h.2.2 1 (by decide) (by decide)
    simpa using this

/-- C7: every row of the table handed to enrichment (and hence to
export) stems from an extracted record with a non-null Title, whose
value survives in the row's Title column, and the transient
`Email ID` column is gone. -/
theorem C7_exported_rows_keep_title (svc : String → Option Nat)
    (rs : List (JobData × String)) :
    ∀ row ∈ (process_job_ids svc (aggregate_results rs)).rows,
      (∃ p ∈ rs, p.1.Title.isSome = true ∧ rowGet row "Title" = p.1.Title.getD "")
      ∧ hasKey row "Email ID" = false := by
  intro row hrow
  have hc : ¬("No_of_emails" ∈ (["Title", "Job_ID", "Due_date"] : List String)) := by
    decide
  simp only [process_job_ids, aggregate_results, if_neg hc, List.map_map] at hrow
  obtain ⟨p, hp, rfl⟩ := List.mem_map.1 hrow
  obtain ⟨hmem, htitle⟩ := List.mem_filter.1 hp
  simp only [Function.comp]
  constructor
  · refine ⟨p, hmem, htitle, ?_⟩
    by_cases hj : rowJobId (rowSet (recordToRow p.1) "No_of_emails" "0") = ""
    · rw [if_pos hj,
        rowGet_rowSet_ne (recordToRow p.1) "No_of_emails" "0" "Title" (by decide)]
      simp [recordToRow, rowGet]
    · rw [if_neg hj,
        rowGet_rowSet_ne _ "No_of_emails" _ "Title" (by decide),
        rowGet_rowSet_ne (recordToRow p.1) "No_of_emails" "0" "Title" (by decide)]
      simp [recordToRow, rowGet]
  · by_cases hj : rowJobId (rowSet (recordToRow p.1) "No_of_emails" "0") = ""
    · rw [if_pos hj,
        hasKey_rowSet_ne (recordToRow p.1) "No_of_emails" "0" "Email ID" (by decide)]
      simp [recordToRow, hasKey]
    · rw [if_neg hj,
        hasKey_rowSet_ne _ "No_of_emails" _ "Email ID" (by decide),
        hasKey_rowSet_ne (recordToRow p.1) "No_of_emails" "0" "Email ID" (by decide)]
      simp [recordToRow, hasKey]

/-- C7 witness: one record with a Title and one with none — the
single surviving row keeps the Title and has no `Email ID` column. -/
theorem C7_witness :
    (∃ p ∈ [((⟨some "T", none, none⟩ : JobData), "m1"),
            ((⟨none, some "AB-123", none⟩ : JobData), "m2")],
        p.1.Title.isSome = true
        ∧ rowGet [("Title", "T"), ("Job_ID", ""), ("Due_date", ""), ("No_of_emails", "0")]
            "Title" = p.1.Title.getD "")
    ∧ hasKey [("Title", "T"), ("Job_ID", ""), ("Due_date", ""), ("No_of_emails", "0")]
        "Email ID" = false :=
  C7_exported_rows_keep_title (fun _ => some 0)
    [((⟨some "T", none, none⟩ : JobData), "m1"),
     ((⟨none, some "AB-123", none⟩ : JobData), "m2")]
    [("Title", "T"), ("Job_ID", ""), ("Due_date", ""), ("No_of_emails", "0")]
    (by decide)

/-- C9: a start request while a run is active is rejected outright —
the state is returned unchanged and no background run is started. -/
theorem C9_second_start_rejected (s : AppState) (h : s.processing = true) :
    process_emails s = (s, false) := by
  simp [process_emails, h]

/-- C9 witness: a concrete active state. -/
theorem C9_witness :
    process_emails ⟨true, some "duedates_formatted.xlsx", false, ["Counting..."]⟩
      = (⟨true, some "duedates_formatted.xlsx", false, ["Counting..."]⟩, false) :=
  C9_second_start_rejected _ rfl

/-- C4 counterexample: a run from a fresh state (no prior artifact)
that ends with every record filtered out clears the progress sequence
but leaves `process_completed = false` — the run is NOT marked done,
contradicting the claim. -/
theorem C4_counterexample :
    (process_emails_background (fun _ => false)
        ⟨true, none, false, ["Extracting email body data..."]⟩
        .noValidRecords).progress_state = []
    ∧ (process_emails_background (fun _ => false)
        ⟨true, none, false, ["Extracting email body data..."]⟩
        .noValidRecords).process_completed = false := by
  constructor <;> rfl

/-- C4 (amended): when a run reaches its normal end without producing
a result artifact, the progress sequence is cleared and the processing
flag is reset, but the run is marked completed only if a previously
recorded artifact file still exists; with no artifact ever recorded
the completion flag ends up false. -/
theorem C4_no_artifact_run_end (fe : String → Bool) (s : AppState) (o : RunOutcome)
    (h : o = RunOutcome.noMessages ∨ o = RunOutcome.noValidRecords) :
    (process_emails_background fe s o).progress_state = []
    ∧ (process_emails_background fe s o).processing = false
    ∧ (process_emails_background fe s o).results_file = s.results_file
    ∧ (process_emails_background fe s o).process_completed
        = match s.results_file with
          | some p => fe p
          | none => false := by
  rcases h with h | h <;> subst h <;>
    exact ⟨rfl, rfl, rfl, rfl⟩

/-- C4 witness: a no-messages run over a state with a stale artifact
that still exists. -/
theorem C4_witness :
    (process_emails_background (fun _ => true)
        ⟨true, some "duedates_formatted.xlsx", false, ["Accessing Gmails..."]⟩
        .noMessages).progress_state = []
    ∧ (process_emails_background (fun _ => true)
        ⟨true, some "duedates_formatted.xlsx", false, ["Accessing Gmails..."]⟩
        .noMessages).processing = false
    ∧ (process_emails_background (fun _ => true)
        ⟨true, some "duedates_formatted.xlsx", false, ["Accessing Gmails..."]⟩
        .noMessages).results_file = some "duedates_formatted.xlsx"
    ∧ (process_emails_background (fun _ => true)
        ⟨true, some "duedates_formatted.xlsx", false, ["Accessing Gmails..."]⟩
        .noMessages).process_completed
        = match (some "duedates_formatted.xlsx" : Option String) with
          | some p => (fun _ => true) p
          | none => false :=
  C4_no_artifact_run_end (fun _ => true)
    ⟨true, some "duedates_formatted.xlsx", false, ["Accessing Gmails..."]⟩
    RunOutcome.noMessages (Or.inl rfl)

end DueDates
